import Mathlib

/-!
Verification of the account-state and payment-settlement core of the m2
marketplace program (`src/programs/m2/src/utils/generic.rs`), as a shallow
embedding in Lean.  Machine integers are modelled as `Nat` with explicit
`% 2^64` where Rust performs a wrapping `as u64` cast; `u128` checked
arithmetic is modelled by `Option Nat` guards against `2^128`.  Fallible
Rust functions returning `Result` are modelled with `Except`; functions
that can hit an out-of-bounds slice index are modelled with an explicit
`panicked` outcome.
-/

namespace M2

/-- The error taxonomy of `crate::errors::ErrorCode` as consumed by
`generic.rs` (the enumeration itself lives outside the analysed file; the
constructors are those named by the spec's error taxonomy). -/
inductive ErrorCode where
  | PublicKeyMismatch
  | InvalidBump
  | DerivedKeyInvalid
  | IncorrectOwner
  | UninitializedAccount
  | InvalidAccountState
  | InvalidTokenMint
  | InvalidTokenStandard
  | MetadataDoesntExist
  | NumericalOverflow
  | ExpectedSolAccount
  | SOLWalletMustSign
  | MissingRemainingAccount
  deriving DecidableEq, Repr

/-- A public key, modelled as its raw byte content. -/
abbrev Pubkey := List Nat

instance {ε α : Type} [DecidableEq ε] [DecidableEq α] :
    DecidableEq (Except ε α) := fun a b =>
  match a, b with
  | .ok x, .ok y =>
    if h : x = y then .isTrue (by rw [h]) else .isFalse (by simp [h])
  | .error x, .error y =>
    if h : x = y then .isTrue (by rw [h]) else .isFalse (by simp [h])
  | .ok _, .error _ => .isFalse (by simp)
  | .error _, .ok _ => .isFalse (by simp)

/-- `2^64`, the modulus of Rust's `u64`. -/
def U64MOD : Nat := 2 ^ 64

/-- `2^128`, the modulus of Rust's `u128`. -/
def U128MOD : Nat := 2 ^ 128

/-- Rust's wrapping cast `as u64` from `u128`. -/
def u64cast (n : Nat) : Nat := n % U64MOD

/-- `u128::checked_mul`. -/
def checkedMul128 (a b : Nat) : Option Nat :=
  if a * b < U128MOD then some (a * b) else none

/-- `u128::checked_div`. -/
def checkedDiv128 (a b : Nat) : Option Nat :=
  if b = 0 then none else some (a / b)

/-- `u128::checked_sub`. -/
def checkedSub128 (a b : Nat) : Option Nat :=
  if a < b then none else some (a - b)

/-- `u64::checked_add`. -/
def checkedAdd64 (a b : Nat) : Option Nat :=
  if a + b < U64MOD then some (a + b) else none

/-- The payees of `pay_auction_house_fees`'s lamport transfers. -/
inductive Payee where
  | buyerReferral
  | sellerReferral
  | treasury
  deriving DecidableEq, Repr

/-- Outcome of `pay_auction_house_fees`: the list of transfer
instructions invoked (payee, lamport amount), in invocation order — also
populated when the function returns an error, since the Rust code invokes
the referral transfers before the treasury computation — together with the
returned `Result<u64>`. -/
structure FeeOutcome where
  transfers : List (Payee × Nat)
  result : Except ErrorCode Nat

/-- One referral block of `pay_auction_house_fees` (the `if bp > 0` blocks
computing `checked_mul`/`checked_div` over `u128`, casting with `as u64`,
and invoking one transfer).  Returns the fee value held in the Rust local
and the transfers invoked. -/
def referralStep (bp size : Nat) (payee : Payee) :
    Except ErrorCode (Nat × List (Payee × Nat)) :=
  if 0 < bp then
    match checkedMul128 bp size with
    | none => .error .NumericalOverflow
    | some p =>
      match checkedDiv128 p 10000 with
      | none => .error .NumericalOverflow
      | some q => .ok (u64cast q, [(payee, u64cast q)])
  else .ok (0, [])

/-- `pay_auction_house_fees` from `generic.rs`: buyer-referral block, then
seller-referral block, then the treasury fee
`(treasury_bp as u128 * size).checked_div(10000).checked_sub(buyer + seller) as u64`
and its transfer.  The basis points are the `AuctionHouse` fields
`seller_fee_basis_points`, `buyer_referral_bp`, `seller_referral_bp`. -/
def payAuctionHouseFees (treasuryBp buyerReferralBp sellerReferralBp size : Nat) :
    FeeOutcome :=
  match referralStep buyerReferralBp size .buyerReferral with
  | .error e => ⟨[], .error e⟩
  | .ok (bfee, btr) =>
    match referralStep sellerReferralBp size .sellerReferral with
    | .error e => ⟨btr, .error e⟩
    | .ok (sfee, str) =>
      match checkedMul128 treasuryBp size with
      | none => ⟨btr ++ str, .error .NumericalOverflow⟩
      | some p =>
        match checkedDiv128 p 10000 with
        | none => ⟨btr ++ str, .error .NumericalOverflow⟩
        | some g =>
          match checkedSub128 g (bfee + sfee) with
          | none => ⟨btr ++ str, .error .NumericalOverflow⟩
          | some t =>
            ⟨btr ++ str ++ [(.treasury, u64cast t)], .ok (u64cast t)⟩

/-! ## Trade-state lifecycle (`create_or_realloc_{seller,buyer}_trade_state`) -/

/-- The observable state of one ledger account inside a transaction:
lamport balance, raw data bytes, and owning program. -/
structure AcctState where
  lamports : Nat
  data : List Nat
  owner : Pubkey
  deriving DecidableEq, Repr

/-- Outcome of a routine that may also hit an out-of-bounds slice index
(a Rust panic) in addition to returning `Ok`/`Err`. -/
inductive RunResult (α : Type) where
  | ok : α → RunResult α
  | err : ErrorCode → RunResult α
  | panicked : RunResult α
  deriving DecidableEq, Repr

/-- `data[off .. off+src.length] := src`, the effect of Rust's
`copy_from_slice` on a subrange (caller has checked bounds). -/
def writeBytes (data : List Nat) (off : Nat) (src : List Nat) : List Nat :=
  data.take off ++ src ++ data.drop (off + src.length)

/-- Anchor's `AccountInfo::realloc(newLen, zero_init = true)`: truncate or
extend the data to `newLen`, zero-filling any new bytes. -/
def reallocData (data : List Nat) (newLen : Nat) : List Nat :=
  data.take newLen ++ List.replicate (newLen - data.length) 0

/-- `create_or_realloc_seller_trade_state` / `create_or_realloc_buyer_trade_state`
(both have this exact shape, differing only in the constants).  Modelled from
the spec for the parts outside the analysed file: `rentMin` is
`Rent::minimum_balance`, `L1` the legacy `TradeState::LEN`, `L2` the
`TradeStateV2::LEN` (an 8-byte leading discriminator plus the record),
`disc` the 8-byte V2 discriminator, and `programId` is `crate::ID`.
`required_lamports = rentMin L2 - lamports` is a `saturating_sub`, i.e.
truncated `Nat` subtraction.  The empty-data branch models the
`system_instruction::create_account` CPI (fund `required_lamports`,
allocate `L2` bytes, assign `programId`) followed by writing the
discriminator; the `L1`-length branch zeroes the data, reallocates to
`L2`, transfers the lamport top-up and writes the discriminator; the
remaining branch reads the first 8 data bytes — panicking, like Rust's
slice indexing, when fewer than 8 exist — and succeeds without any state
change iff they equal `disc`. -/
def createOrReallocTradeState (rentMin : Nat → Nat) (L1 L2 : Nat)
    (disc : List Nat) (programId : Pubkey) (sts : AcctState) :
    RunResult AcctState :=
  let required := rentMin L2 - sts.lamports
  if sts.data.length = 0 then
    let created : AcctState :=
      ⟨sts.lamports + required, List.replicate L2 0, programId⟩
    if 8 ≤ L2 then
      .ok { created with data := writeBytes created.data 0 disc }
    else .panicked
  else if sts.data.length = L1 then
    let zeroed : List Nat := List.replicate L1 0
    let grown : List Nat := reallocData zeroed L2
    if 8 ≤ grown.length then
      .ok ⟨sts.lamports + required, writeBytes grown 0 disc, sts.owner⟩
    else .panicked
  else if sts.data.length < 8 then .panicked
  else if sts.data.take 8 = disc then .ok sts
  else .err .InvalidAccountState

/-- `close_account_anchor`: zero the source's lamports, `checked_add` the
prior balance onto the destination (failing `NumericalOverflow`), then
zero the first 8 data bytes of the source — a slice that panics when the
data is shorter than 8 bytes.  Returns the new (info, dest) states. -/
def closeAccountAnchor (info dest : AcctState) : RunResult (AcctState × AcctState) :=
  let currLamp := info.lamports
  let info' : AcctState := { info with lamports := 0 }
  match checkedAdd64 dest.lamports currLamp with
  | none => .err .NumericalOverflow
  | some v =>
    if 8 ≤ info'.data.length then
      .ok ({ info' with data := writeBytes info'.data 0 (List.replicate 8 0) },
           { dest with lamports := v })
    else .panicked

/-! ## Escrow reclamation (`try_close_buyer_escrow`) -/

/-- `try_close_buyer_escrow`: with `min_rent = Rent::minimum_balance(0)`
(passed here as the spec-modelled `minRent`), a no-op `Ok` when the
escrow balance is `0` or strictly above `min_rent`; otherwise invoke one
transfer of the full balance to the buyer and return `Ok`.  The result is
`none` for the no-op and `some amount` for the transfer invoked. -/
def tryCloseBuyerEscrow (minRent escrowLamports : Nat) : Option Nat :=
  if escrowLamports = 0 ∨ minRent < escrowLamports then none
  else some escrowLamports

/-! ## Notary gate (`assert_valid_notary`) -/

/-- The `AuctionHouse` configuration fields consumed by this core.
Modelled from the spec: the account type is declared outside the analysed
file; the spec lists seller fee basis points, buyer/seller referral basis
points, the notary-requirement flag and the notary key.  Basis points are
`u16` fields (as the `u16`/`i16` fee-bp types in `generic.rs` itself
indicate), kept as `Nat` here with `< 2^16` hypotheses where relevant. -/
structure AuctionHouse where
  sellerFeeBasisPoints : Nat
  buyerReferralBp : Nat
  sellerReferralBp : Nat
  requiresNotary : Bool
  notary : Pubkey
  deriving DecidableEq, Repr

/-- Rust's `i64::abs` as compiled in release mode: wrapping — the
negation overflows only at `i64::MIN`, which is returned unchanged. -/
def i64WrappingAbs (x : Int) : Int :=
  if x = -(2 ^ 63) then x else |x|

/-- `assert_valid_notary`: when `requires_notary`, first compute
`(clock.unix_timestamp.abs() % 100) as u8` — `abs` is the wrapping
`i64::abs`, `%` is Rust's truncating remainder (`Int.tmod`), and the
`as u8` cast keeps the low byte of the two's-complement value
(`% 256 |>.toNat`, the remainder lying in `(-100, 100)`) — and skip the
check (succeed) when it is `≥ enforce_prob`; otherwise fail
`InvalidAccountState` unless the notary account is a signer whose key
equals `auction_house.notary`. -/
def assertValidNotary (ah : AuctionHouse) (notaryKey : Pubkey)
    (notaryIsSigner : Bool) (enforceProb : Nat) (clockTs : Int) :
    Except ErrorCode Unit :=
  if ah.requiresNotary then
    if ((i64WrappingAbs clockTs).tmod 100 % 256).toNat ≥ enforceProb then .ok ()
    else if ¬ notaryIsSigner then .error .InvalidAccountState
    else if notaryKey ≠ ah.notary then .error .InvalidAccountState
    else .ok ()
  else .ok ()

/-! ## Token-account decoding and delegation (`assert_valid_delegation`) -/

/-- An SPL token account value (`spl_token::state::Account`), with `Nat`
for the `u64` fields and `Option` for the `COption` fields.  `state` is
the raw state tag: `0 = Uninitialized`, `1 = Initialized`, `2 = Frozen`. -/
structure TokenAcct where
  mint : Pubkey
  owner : Pubkey
  amount : Nat
  delegate : Option Pubkey
  state : Nat
  isNative : Option Nat
  delegatedAmount : Nat
  closeAuthority : Option Pubkey
  deriving DecidableEq, Repr

/-- `IsInitialized::is_initialized` for an SPL token account: the state
tag differs from `Uninitialized`. -/
def TokenAcct.isInit (a : TokenAcct) : Bool := a.state ≠ 0

/-- An account handle as consumed by the validators: its address, owning
program, signer flag, and the result of `unpack_unchecked`-decoding its
data bytes as an SPL token account (`none` when the bytes do not parse as
the 165-byte token-account layout). -/
structure AcctInfo where
  key : Pubkey
  owner : Pubkey
  isSigner : Bool
  tokenData : Option TokenAcct
  deriving DecidableEq, Repr

/-- `spl_token::state::Account::unpack`: `unpack_unchecked` plus the
`is_initialized` filter (`Pack::unpack` rejects uninitialized accounts). -/
def unpackToken (a : AcctInfo) : Option TokenAcct :=
  match a.tokenData with
  | some t => if t.isInit then some t else none
  | none => none

/-- The error type surfaced by the validators: either one of the
program's `ErrorCode`s or the `ProgramError::InvalidAccountData` produced
by a failed `unpack_unchecked`. -/
inductive MErr where
  | code : ErrorCode → MErr
  | invalidAccountData : MErr
  deriving DecidableEq, Repr

/-- `assert_keys_equal`: fail `PublicKeyMismatch` when the keys differ. -/
def assertKeysEqual (k1 k2 : Pubkey) : Except MErr Unit :=
  if k1 ≠ k2 then .error (.code .PublicKeyMismatch) else .ok ()

/-- `assert_owned_by`: fail `IncorrectOwner` when the account's owning
program differs from the expected one. -/
def assertOwnedBy (a : AcctInfo) (owner : Pubkey) : Except MErr Unit :=
  if a.owner ≠ owner then .error (.code .IncorrectOwner) else .ok ()

/-- `assert_initialized::<spl_token::state::Account>`: `unpack_unchecked`
the bytes (propagating its decode error), then fail
`UninitializedAccount` when the initialized flag is false. -/
def assertInitialized (a : AcctInfo) : Except MErr TokenAcct :=
  match a.tokenData with
  | none => .error .invalidAccountData
  | some t => if ¬ t.isInit then .error (.code .UninitializedAccount) else .ok t

/-- `assert_is_ata`: token-program ownership, initialized decode, the
owner check (skipped when the decoded owner equals `optional_owner`),
the mint check, and the canonical associated-token-address check.
`ataOf` stands for `get_associated_token_address`, an injected pure
derivation function (its SHA-based definition lives outside this core). -/
def assertIsAta (ataOf : Pubkey → Pubkey → Pubkey) (splTokenId : Pubkey)
    (ata : AcctInfo) (wallet mint optOwner : Pubkey) : Except MErr TokenAcct := do
  assertOwnedBy ata splTokenId
  let a ← assertInitialized ata
  if a.owner ≠ optOwner then assertKeysEqual a.owner wallet
  assertKeysEqual a.mint mint
  assertKeysEqual (ataOf wallet mint) ata.key
  return a

/-- `assert_valid_delegation`: attempt the SPL token decode of `src`.  On
success require `delegated_amount == paysize` and
`delegate == COption::Some(authority)` (else `InvalidAccountState`), then
require `src` and `dst` to pass `assert_is_ata` for their wallets and the
mint (with `optional_owner` equal to the wallet itself).  On decode
failure require the native mint (else `ExpectedSolAccount`), the source
wallet's signature (else `SOLWalletMustSign`), and
`src_wallet.key == src.key`, `dst_wallet.key == dst.key`
(else `PublicKeyMismatch`). -/
def assertValidDelegation (ataOf : Pubkey → Pubkey → Pubkey)
    (splTokenId nativeMint : Pubkey) (src dst srcWallet dstWallet : AcctInfo)
    (authority : Pubkey) (mintKey : Pubkey) (paysize : Nat) :
    Except MErr Unit :=
  match unpackToken src with
  | some tokenAccount =>
    if tokenAccount.delegatedAmount ≠ paysize then
      .error (.code .InvalidAccountState)
    else if tokenAccount.delegate ≠ some authority then
      .error (.code .InvalidAccountState)
    else do
      let _ ← assertIsAta ataOf splTokenId src srcWallet.key mintKey srcWallet.key
      let _ ← assertIsAta ataOf splTokenId dst dstWallet.key mintKey dstWallet.key
      return ()
  | none =>
    if mintKey ≠ nativeMint then .error (.code .ExpectedSolAccount)
    else if ¬ srcWallet.isSigner then .error (.code .SOLWalletMustSign)
    else do
      assertKeysEqual srcWallet.key src.key
      assertKeysEqual dstWallet.key dst.key

/-! ## Raw layout readers and the SPL token-account byte layout -/

/-- Little-endian byte encoding of a `u64` value (8 bytes). -/
def u64le (n : Nat) : List Nat :=
  [n % 256, n / 256 % 256, n / 256 ^ 2 % 256, n / 256 ^ 3 % 256,
   n / 256 ^ 4 % 256, n / 256 ^ 5 % 256, n / 256 ^ 6 % 256, n / 256 ^ 7 % 256]

/-- Little-endian decode of a 4-byte slice (`u32::from_le_bytes`). -/
def u32leDecode (bs : List Nat) : Nat :=
  match bs with
  | [b0, b1, b2, b3] => b0 + 256 * b1 + 256 ^ 2 * b2 + 256 ^ 3 * b3
  | _ => 0

/-- Little-endian decode of an 8-byte slice (`u64::from_le_bytes`). -/
def u64leDecode (bs : List Nat) : Nat :=
  match bs with
  | [b0, b1, b2, b3, b4, b5, b6, b7] =>
    b0 + 256 * b1 + 256 ^ 2 * b2 + 256 ^ 3 * b3 + 256 ^ 4 * b4 +
      256 ^ 5 * b5 + 256 ^ 6 * b6 + 256 ^ 7 * b7
  | _ => 0

/-- `array_ref![data, off, len]`: the `len` bytes starting at `off`. -/
def sliceBytes (data : List Nat) (off len : Nat) : List Nat :=
  (data.drop off).take len

/-- The SPL `COption<Pubkey>` packing: a 4-byte little-endian presence
tag (`0` absent, `1` present) followed by the 32 key bytes (zeroed when
absent). -/
def packCOptionKey (k : Option Pubkey) : List Nat :=
  match k with
  | none => [0, 0, 0, 0] ++ List.replicate 32 0
  | some key => [1, 0, 0, 0] ++ key

/-- The SPL `COption<u64>` packing: a 4-byte presence tag followed by the
8 value bytes. -/
def packCOptionU64 (v : Option Nat) : List Nat :=
  match v with
  | none => [0, 0, 0, 0] ++ List.replicate 8 0
  | some n => [1, 0, 0, 0] ++ u64le n

/-- `spl_token::state::Account::pack`: mint (32) ++ owner (32) ++
amount (8, LE) ++ delegate (4 + 32) ++ state (1) ++ is_native (4 + 8) ++
delegated_amount (8, LE) ++ close_authority (4 + 32) — 165 bytes. -/
def packTokenAccount (a : TokenAcct) : List Nat :=
  a.mint ++ a.owner ++ u64le a.amount ++ packCOptionKey a.delegate ++
    [a.state] ++ packCOptionU64 a.isNative ++ u64le a.delegatedAmount ++
    packCOptionKey a.closeAuthority

/-- `get_mint_from_token_account`: bytes `[0, 32)` as a key. -/
def get_mint_from_token_account (data : List Nat) : Pubkey :=
  sliceBytes data 0 32

/-- `get_delegate_from_token_account`: read the 4-byte presence tag at
`[72, 76)`; `none` when it is zero, otherwise the key bytes `[76, 108)`. -/
def get_delegate_from_token_account (data : List Nat) : Option Pubkey :=
  if u32leDecode (sliceBytes data 72 4) = 0 then none
  else some (sliceBytes data 76 32)

/-- `get_balance_from_token_account`: the little-endian `u64` at `[64, 72)`. -/
def get_balance_from_token_account (data : List Nat) : Nat :=
  u64leDecode (sliceBytes data 64 8)



/-! ## Fee-engine lemmas -/

theorem bp_mul_size_lt (bp size : Nat) (hbp : bp < 2 ^ 16) (hsize : size < 2 ^ 64) :
    bp * size < U128MOD := by
  have h1 : bp * size ≤ 2 ^ 16 * 2 ^ 64 := Nat.mul_le_mul hbp.le hsize.le
  have h2 : (2 : Nat) ^ 16 * 2 ^ 64 < 2 ^ 128 := by norm_num
  unfold U128MOD
  omega

theorem referralStep_eq (bp size : Nat) (p : Payee) (h : bp * size < U128MOD) :
    referralStep bp size p =
      .ok (u64cast (bp * size / 10000),
        if 0 < bp then [(p, u64cast (bp * size / 10000))] else []) := by
  by_cases hbp : 0 < bp
  · simp [referralStep, checkedMul128, checkedDiv128, hbp, h]
  · have hz : bp = 0 := by omega
    subst hz
    simp [referralStep, u64cast]

/-- Closed form of `payAuctionHouseFees` when none of the `u128` products
overflows (always the case for `u16` basis points and a `u64` size). -/
theorem payAuctionHouseFees_eq (t b s size : Nat)
    (hbm : b * size < U128MOD) (hsm : s * size < U128MOD)
    (htm : t * size < U128MOD) :
    payAuctionHouseFees t b s size =
      if t * size / 10000 < u64cast (b * size / 10000) + u64cast (s * size / 10000) then
        ⟨(if 0 < b then [(Payee.buyerReferral, u64cast (b * size / 10000))] else []) ++
          (if 0 < s then [(Payee.sellerReferral, u64cast (s * size / 10000))] else []),
         .error .NumericalOverflow⟩
      else
        ⟨((if 0 < b then [(Payee.buyerReferral, u64cast (b * size / 10000))] else []) ++
           (if 0 < s then [(Payee.sellerReferral, u64cast (s * size / 10000))] else [])) ++
          [(Payee.treasury,
            u64cast (t * size / 10000 -
              (u64cast (b * size / 10000) + u64cast (s * size / 10000))))],
         .ok (u64cast (t * size / 10000 -
           (u64cast (b * size / 10000) + u64cast (s * size / 10000))))⟩ := by
  unfold payAuctionHouseFees
  rw [referralStep_eq b size _ hbm, referralStep_eq s size _ hsm]
  by_cases hlt :
      t * size / 10000 < u64cast (b * size / 10000) + u64cast (s * size / 10000)
  · simp [checkedMul128, checkedDiv128, checkedSub128, htm, hlt]
  · simp [checkedMul128, checkedDiv128, checkedSub128, htm, hlt]

/-- For a division by 10000, the sum of the floors is at most the floor of
the sum. -/
theorem div_add_div_le (x y : Nat) :
    x / 10000 + y / 10000 ≤ (x + y) / 10000 := by
  rw [Nat.le_div_iff_mul_le (by norm_num)]
  have hx := Nat.div_mul_le_self x 10000
  have hy := Nat.div_mul_le_self y 10000
  have : (x / 10000 + y / 10000) * 10000 = x / 10000 * 10000 + y / 10000 * 10000 := by
    ring
  omega

/-! ## C1: fee split conservation -/

/-- C1 (amended): for every `u64` sale size and every `u16` basis-point
configuration with `seller_fee_basis_points ≥ buyer_referral_bp +
seller_referral_bp`, and provided the gross treasury share
`floor(size * seller_fee_basis_points / 10000)` fits in a `u64` (without
this extra hypothesis the `as u64` casts wrap and conservation fails),
`pay_auction_house_fees` returns a `treasury_fee` with `treasury_fee +
buyer_fee + seller_fee = floor(size * seller_fee_basis_points / 10000)`,
where `buyer_fee = floor(size * buyer_referral_bp / 10000)` if
`buyer_referral_bp > 0` (else 0), and symmetrically for `seller_fee`. -/
theorem fee_split_conservation (t b s size : Nat)
    (ht : t < 2 ^ 16) (hb : b < 2 ^ 16) (hs : s < 2 ^ 16) (hsize : size < 2 ^ 64)
    (hcfg : b + s ≤ t) (hfit : size * t / 10000 < 2 ^ 64) :
    (payAuctionHouseFees t b s size).result =
      .ok (size * t / 10000 -
        ((if 0 < b then size * b / 10000 else 0) +
          (if 0 < s then size * s / 10000 else 0))) ∧
    (size * t / 10000 -
        ((if 0 < b then size * b / 10000 else 0) +
          (if 0 < s then size * s / 10000 else 0))) +
      (if 0 < b then size * b / 10000 else 0) +
      (if 0 < s then size * s / 10000 else 0) = size * t / 10000 := by
  have hifb : (if 0 < b then size * b / 10000 else 0) = size * b / 10000 := by
    by_cases h : 0 < b
    · simp [h]
    · have : b = 0 := by omega
      simp [this]
  have hifs : (if 0 < s then size * s / 10000 else 0) = size * s / 10000 := by
    by_cases h : 0 < s
    · simp [h]
    · have : s = 0 := by omega
      simp [this]
  have hble : size * b / 10000 ≤ size * t / 10000 :=
    Nat.div_le_div_right (Nat.mul_le_mul_left size (by omega))
  have hsle : size * s / 10000 ≤ size * t / 10000 :=
    Nat.div_le_div_right (Nat.mul_le_mul_left size (by omega))
  have hsum : size * b / 10000 + size * s / 10000 ≤ size * t / 10000 := by
    have h1 := div_add_div_le (size * b) (size * s)
    have h2 : size * b + size * s = size * (b + s) := by ring
    have h3 : size * (b + s) / 10000 ≤ size * t / 10000 :=
      Nat.div_le_div_right (Nat.mul_le_mul_left size hcfg)
    omega
  have hbcast : u64cast (b * size / 10000) = size * b / 10000 := by
    rw [Nat.mul_comm b size]
    exact Nat.mod_eq_of_lt (by unfold U64MOD; omega)
  have hscast : u64cast (s * size / 10000) = size * s / 10000 := by
    rw [Nat.mul_comm s size]
    exact Nat.mod_eq_of_lt (by unfold U64MOD; omega)
  have heq := payAuctionHouseFees_eq t b s size
    (bp_mul_size_lt b size hb hsize) (bp_mul_size_lt s size hs hsize)
    (bp_mul_size_lt t size ht hsize)
  rw [Nat.mul_comm t size] at heq
  rw [hbcast, hscast] at heq
  rw [if_neg (by omega)] at heq
  have htcast :
      u64cast (size * t / 10000 - (size * b / 10000 + size * s / 10000)) =
        size * t / 10000 - (size * b / 10000 + size * s / 10000) :=
    Nat.mod_eq_of_lt (by unfold U64MOD; omega)
  rw [htcast] at heq
  rw [heq, hifb, hifs]
  exact ⟨rfl, by omega⟩

/-- C1 witness: the spec's worked example — `size = 1000000`,
`seller_fee_basis_points = 200`, `buyer_referral_bp = 50`,
`seller_referral_bp = 0` — instantiates the conservation theorem. -/
theorem fee_split_conservation_witness :
    (payAuctionHouseFees 200 50 0 1000000).result =
      .ok (1000000 * 200 / 10000 -
        ((if 0 < (50 : Nat) then 1000000 * 50 / 10000 else 0) +
          (if 0 < (0 : Nat) then 1000000 * 0 / 10000 else 0))) ∧
    (1000000 * 200 / 10000 -
        ((if 0 < (50 : Nat) then 1000000 * 50 / 10000 else 0) +
          (if 0 < (0 : Nat) then 1000000 * 0 / 10000 else 0))) +
      (if 0 < (50 : Nat) then 1000000 * 50 / 10000 else 0) +
      (if 0 < (0 : Nat) then 1000000 * 0 / 10000 else 0) = 1000000 * 200 / 10000 :=
  fee_split_conservation 200 50 0 1000000 (by norm_num) (by norm_num)
    (by norm_num) (by norm_num) (by norm_num) (by norm_num)

/-- C1 counterexample: with `seller_fee_basis_points = 20000` (a legal
`u16` never validated against 10000), no referrals, and `size = 2^64 - 1`,
the gross share is `2^65 - 2`; the `as u64` cast truncates it to
`2^64 - 2`, so the returned treasury fee plus the (zero) referral fees
does not equal `floor(size * seller_fee_basis_points / 10000)`. -/
theorem fee_split_conservation_cex :
    0 + 0 ≤ 20000 ∧
    (payAuctionHouseFees 20000 0 0 (2 ^ 64 - 1)).result = .ok (2 ^ 64 - 2) ∧
    2 ^ 64 - 2 + 0 + 0 ≠ (2 ^ 64 - 1) * 20000 / 10000 := by
  decide

/-! ## C3: transfers already invoked when the fee engine fails -/

/-- C3 (amended): for every `u16`/`u64` input on which
`pay_auction_house_fees` fails, the error is `NumericalOverflow` (the
treasury `checked_sub` underflow) and the transfer instructions invoked
before the error are exactly the referral transfers, one per positive
referral basis-point value — so the referral transfers HAVE already been
invoked when the error is returned (atomicity is provided by the
enclosing transaction, not by the function), and only the treasury
transfer is never invoked before the error. -/
theorem overflow_failure_no_treasury_transfer (t b s size : Nat)
    (ht : t < 2 ^ 16) (hb : b < 2 ^ 16) (hs : s < 2 ^ 16) (hsize : size < 2 ^ 64)
    (e : ErrorCode) (herr : (payAuctionHouseFees t b s size).result = .error e) :
    e = .NumericalOverflow ∧
    (payAuctionHouseFees t b s size).transfers =
      (if 0 < b then [(Payee.buyerReferral, u64cast (b * size / 10000))] else []) ++
        (if 0 < s then [(Payee.sellerReferral, u64cast (s * size / 10000))] else []) ∧
    ∀ pr ∈ (payAuctionHouseFees t b s size).transfers, pr.1 ≠ Payee.treasury := by
  have heq := payAuctionHouseFees_eq t b s size
    (bp_mul_size_lt b size hb hsize) (bp_mul_size_lt s size hs hsize)
    (bp_mul_size_lt t size ht hsize)
  by_cases hlt :
      t * size / 10000 < u64cast (b * size / 10000) + u64cast (s * size / 10000)
  · rw [heq, if_pos hlt] at herr ⊢
    simp only [Except.error.injEq] at herr
    refine ⟨herr.symm, rfl, ?_⟩
    intro pr hpr
    rcases List.mem_append.1 hpr with h | h
    · by_cases hbp : 0 < b
      · simp only [if_pos hbp, List.mem_singleton] at h
        rw [h]
        simp
      · simp [if_neg hbp] at h
    · by_cases hsp : 0 < s
      · simp only [if_pos hsp, List.mem_singleton] at h
        rw [h]
        simp
      · simp [if_neg hsp] at h
  · rw [heq, if_neg hlt] at herr
    simp at herr

/-- C3 witness: a failing configuration (`buyer_referral_bp = 1`,
`seller_fee_basis_points = 0`, `size = 10000`) instantiating the theorem. -/
theorem overflow_failure_no_treasury_transfer_witness :
    ErrorCode.NumericalOverflow = ErrorCode.NumericalOverflow ∧
    (payAuctionHouseFees 0 1 0 10000).transfers =
      (if 0 < (1 : Nat) then [(Payee.buyerReferral, u64cast (1 * 10000 / 10000))] else []) ++
        (if 0 < (0 : Nat) then [(Payee.sellerReferral, u64cast (0 * 10000 / 10000))] else []) ∧
    ∀ pr ∈ (payAuctionHouseFees 0 1 0 10000).transfers, pr.1 ≠ Payee.treasury :=
  overflow_failure_no_treasury_transfer 0 1 0 10000 (by norm_num) (by norm_num)
    (by norm_num) (by norm_num) .NumericalOverflow (by decide)

/-- C3 counterexample: with `buyer_referral_bp = 1`,
`seller_fee_basis_points = 0` and `size = 10000` the function fails with
`NumericalOverflow`, yet a (buyer-referral) transfer instruction was
invoked before the error was returned — the claim that no transfer is
invoked before the error is false. -/
theorem overflow_failure_no_treasury_transfer_cex :
    (payAuctionHouseFees 0 1 0 10000).result = .error .NumericalOverflow ∧
    (payAuctionHouseFees 0 1 0 10000).transfers ≠ [] := by
  decide

/-! ## C7: checked 128-bit arithmetic and the wrapping u64 casts -/

/-- C7 (amended): for every `u16` basis-point configuration and `u64`
size, the `u128` checked multiplications and divisions never overflow, so
the only failure of `pay_auction_house_fees` is `NumericalOverflow` from
the treasury `checked_sub`, occurring exactly when the (possibly
truncated) referral fees exceed the gross share; the conversions back to
`u64`, however, are wrapping `as` casts — computed fees are reduced
modulo `2^64`, not rejected, so a fee that does not fit in 64 bits IS
silently truncated. -/
theorem checked_fee_arithmetic (t b s size : Nat)
    (ht : t < 2 ^ 16) (hb : b < 2 ^ 16) (hs : s < 2 ^ 16) (hsize : size < 2 ^ 64) :
    ((payAuctionHouseFees t b s size).result = .error .NumericalOverflow ↔
      t * size / 10000 < u64cast (b * size / 10000) + u64cast (s * size / 10000)) ∧
    ∀ v, (payAuctionHouseFees t b s size).result = .ok v →
      v = u64cast (t * size / 10000 -
        (u64cast (b * size / 10000) + u64cast (s * size / 10000))) := by
  have heq := payAuctionHouseFees_eq t b s size
    (bp_mul_size_lt b size hb hsize) (bp_mul_size_lt s size hs hsize)
    (bp_mul_size_lt t size ht hsize)
  by_cases hlt :
      t * size / 10000 < u64cast (b * size / 10000) + u64cast (s * size / 10000)
  · rw [heq, if_pos hlt]
    exact ⟨by simp [hlt], by intro v hv; simp at hv⟩
  · rw [heq, if_neg hlt]
    refine ⟨by simp [hlt], ?_⟩
    intro v hv
    simp only [Except.ok.injEq] at hv
    exact hv.symm

/-- C7 witness: the worked spec example instantiating the
characterization theorem. -/
theorem checked_fee_arithmetic_witness :
    (((payAuctionHouseFees 200 50 0 1000000).result = .error .NumericalOverflow ↔
      200 * 1000000 / 10000 <
        u64cast (50 * 1000000 / 10000) + u64cast (0 * 1000000 / 10000)) ∧
    ∀ v, (payAuctionHouseFees 200 50 0 1000000).result = .ok v →
      v = u64cast (200 * 1000000 / 10000 -
        (u64cast (50 * 1000000 / 10000) + u64cast (0 * 1000000 / 10000)))) :=
  checked_fee_arithmetic 200 50 0 1000000 (by norm_num) (by norm_num)
    (by norm_num) (by norm_num)

/-- C7 counterexample: at `seller_fee_basis_points = 65535` (max `u16`),
no referrals, and `size = 2^64 - 1`, the computed treasury fee exceeds
`u64::MAX`, yet the function returns `Ok` with the fee reduced modulo
`2^64` instead of failing `NumericalOverflow` — the conversion back to
`u64` silently truncates. -/
theorem checked_fee_arithmetic_cex :
    2 ^ 64 ≤ (2 ^ 64 - 1) * 65535 / 10000 ∧
    (payAuctionHouseFees 65535 0 0 (2 ^ 64 - 1)).result =
      .ok ((2 ^ 64 - 1) * 65535 / 10000 % 2 ^ 64) ∧
    (payAuctionHouseFees 65535 0 0 (2 ^ 64 - 1)).result ≠
      .error .NumericalOverflow := by
  decide

/-! ## C4: escrow reclamation -/

/-- C4 (amended): `try_close_buyer_escrow` is a no-op success when the
escrow balance is 0, and a no-op success when the balance strictly
exceeds the rent-exempt minimum for a zero-size account; when the
balance is positive and at or below that minimum — including a balance
of exactly the minimum (which the original claim wrongly called a
no-op), and a 1-lamport balance when the rent floor exceeds 1 — it
invokes a transfer of the full balance to the buyer. -/
theorem try_close_buyer_escrow_spec (minRent bal : Nat) :
    (bal = 0 → tryCloseBuyerEscrow minRent bal = none) ∧
    (minRent < bal → tryCloseBuyerEscrow minRent bal = none) ∧
    (0 < bal → bal ≤ minRent → tryCloseBuyerEscrow minRent bal = some bal) := by
  refine ⟨fun h => ?_, fun h => ?_, fun h1 h2 => ?_⟩
  · simp [tryCloseBuyerEscrow, h]
  · simp [tryCloseBuyerEscrow, h]
  · have := h1
    simp only [tryCloseBuyerEscrow]
    rw [if_neg]
    push_neg
    omega

/-- C4 witness: with the rent floor at 890880 lamports, a zero balance is
a no-op and a 1-lamport balance is transferred in full. -/
theorem try_close_buyer_escrow_spec_witness :
    tryCloseBuyerEscrow 890880 0 = none ∧
    tryCloseBuyerEscrow 890880 1 = some 1 :=
  ⟨(try_close_buyer_escrow_spec 890880 0).1 rfl,
   (try_close_buyer_escrow_spec 890880 1).2.2 (by norm_num) (by norm_num)⟩

/-- C4 counterexample: with the rent-exempt minimum for a zero-size
account at 890880 lamports, an escrow whose balance equals that minimum
triggers a full transfer to the buyer — not the no-op success the claim
states for `balance = rent_exempt_minimum`. -/
theorem try_close_buyer_escrow_cex :
    tryCloseBuyerEscrow 890880 890880 = some 890880 ∧
    tryCloseBuyerEscrow 890880 890880 ≠ none := by
  decide

/-! ## C6: the notary gate -/

/-- For every clock other than `i64::MIN`, the skip byte computed by the
gate is the mathematical `|ts| % 100`, a value below 100. -/
theorem notary_skip_byte_eq (ts : Int) (hne : ts ≠ -(2 ^ 63)) :
    ((i64WrappingAbs ts).tmod 100 % 256).toNat = ts.natAbs % 100 := by
  have h1 : i64WrappingAbs ts = (ts.natAbs : Int) := by
    rw [i64WrappingAbs, if_neg hne, Int.abs_eq_natAbs]
  have h2 : (ts.natAbs : Int).tmod 100 = ((ts.natAbs % 100 : Nat) : Int) :=
    (Int.ofNat_tmod ts.natAbs 100).symm
  have h3 : ((ts.natAbs % 100 : Nat) : Int) % 256 =
      ((ts.natAbs % 100 : Nat) : Int) := by
    apply Int.emod_eq_of_lt
    · positivity
    · exact_mod_cast (by omega : ts.natAbs % 100 < 256)
  rw [h1, h2, h3]
  omega

/-- C6 (amended): `assert_valid_notary` always succeeds when
`requires_notary` is false, for every notary key, signer flag,
`enforce_prob` and clock; with `requires_notary = true` and
`enforce_prob = 100`, for every representable clock OTHER THAN
`i64::MIN` the skip byte `|ts| % 100` is below 100, so the gate fails
with `InvalidAccountState` whenever the notary is not a transaction
signer or its key differs from `auction_house.notary`, and succeeds
when the notary signs with the matching key; at the single clock value
`i64::MIN`, however, the wrapping `abs` keeps `i64::MIN`, the skip byte
is `(-8) as u8 = 248 ≥ 100`, and the gate succeeds unconditionally. -/
theorem assert_valid_notary_spec (ah : AuctionHouse) (k : Pubkey)
    (signer : Bool) (prob : Nat) (ts : Int) :
    (ah.requiresNotary = false → assertValidNotary ah k signer prob ts = .ok ()) ∧
    (ah.requiresNotary = true → -(2 ^ 63) < ts → ts < 2 ^ 63 →
      (¬ (signer = true ∧ k = ah.notary) →
        assertValidNotary ah k signer 100 ts = .error .InvalidAccountState) ∧
      (signer = true → k = ah.notary →
        assertValidNotary ah k signer 100 ts = .ok ())) ∧
    (ah.requiresNotary = true →
      assertValidNotary ah k signer 100 (-(2 ^ 63)) = .ok ()) := by
  refine ⟨fun h => ?_, fun h hlo _ => ?_, fun h => ?_⟩
  · simp [assertValidNotary, h]
  · have hbyte : ((i64WrappingAbs ts).tmod 100 % 256).toNat = ts.natAbs % 100 :=
      notary_skip_byte_eq ts (by omega)
    have hmod : ¬ (((i64WrappingAbs ts).tmod 100 % 256).toNat ≥ 100) := by
      rw [hbyte]
      have := Nat.mod_lt ts.natAbs (show 0 < 100 by norm_num)
      omega
    refine ⟨fun hng => ?_, fun hst hk => ?_⟩
    · rcases Bool.eq_false_or_eq_true signer with hst | hsf
      · have hk : k ≠ ah.notary := fun hkeq => hng ⟨hst, hkeq⟩
        simp [assertValidNotary, h, hmod, hst, hk]
      · simp [assertValidNotary, h, hmod, hsf]
    · simp [assertValidNotary, h, hmod, hst, hk]
  · have hge :
        ((i64WrappingAbs (-(2 ^ 63) : Int)).tmod 100 % 256).toNat ≥ 100 := by
      decide
    unfold assertValidNotary
    rw [if_pos h, if_pos hge]

/-- C6 witness: concrete instantiations — gate off; gate on with a
non-signing notary at an ordinary clock; gate on with the correct
signing notary; gate on at the `i64::MIN` clock. -/
theorem assert_valid_notary_spec_witness :
    assertValidNotary ⟨0, 0, 0, false, [1]⟩ [2] false 7 5 = .ok () ∧
    assertValidNotary ⟨0, 0, 0, true, [1]⟩ [2] false 100 5 =
      .error .InvalidAccountState ∧
    assertValidNotary ⟨0, 0, 0, true, [1]⟩ [1] true 100 5 = .ok () ∧
    assertValidNotary ⟨0, 0, 0, true, [1]⟩ [2] false 100 (-(2 ^ 63)) = .ok () :=
  ⟨(assert_valid_notary_spec ⟨0, 0, 0, false, [1]⟩ [2] false 7 5).1 rfl,
   ((assert_valid_notary_spec ⟨0, 0, 0, true, [1]⟩ [2] false 100 5).2.1 rfl
     (by norm_num) (by norm_num)).1 (by simp),
   ((assert_valid_notary_spec ⟨0, 0, 0, true, [1]⟩ [1] true 100 5).2.1 rfl
     (by norm_num) (by norm_num)).2 rfl rfl,
   (assert_valid_notary_spec ⟨0, 0, 0, true, [1]⟩ [2] false 100 0).2.2 rfl⟩

/-- C6 counterexample: at `unix_timestamp = i64::MIN` the wrapping
`i64::abs` returns `i64::MIN`, the truncating `% 100` gives `-8`, and
the `as u8` cast gives `248 ≥ 100`: with `requires_notary = true` and
`enforce_prob = 100` the gate skips and SUCCEEDS for a non-signing
notary with the wrong key, instead of failing `InvalidAccountState` as
the claim states for every clock state. -/
theorem assert_valid_notary_cex :
    assertValidNotary ⟨0, 0, 0, true, [1]⟩ [2] false 100 (-(2 ^ 63)) = .ok () ∧
    assertValidNotary ⟨0, 0, 0, true, [1]⟩ [2] false 100 (-(2 ^ 63)) ≠
      .error .InvalidAccountState := by
  decide

/-! ## Trade-state lifecycle lemmas -/

theorem writeBytes_replicate_zero (n : Nat) (src : List Nat) :
    writeBytes (List.replicate n 0) 0 src = src ++ List.replicate (n - src.length) 0 := by
  simp [writeBytes, List.drop_replicate]

theorem reallocData_replicate (L1 L2 : Nat) (h : L1 ≤ L2) :
    reallocData (List.replicate L1 0) L2 = List.replicate L2 0 := by
  unfold reallocData
  rw [List.take_replicate, List.length_replicate, Nat.min_eq_right h,
    ← List.replicate_add]
  congr 1
  omega

/-- The byte shape written by both fresh creation and migration: the
discriminator followed by zeros. -/
theorem v2_shape_props (L2 : Nat) (disc : List Nat) (hdisc : disc.length = 8)
    (hL2 : 8 ≤ L2) :
    (disc ++ List.replicate (L2 - 8) 0).take 8 = disc ∧
    (disc ++ List.replicate (L2 - 8) 0).length = L2 := by
  constructor
  · exact List.take_left' hdisc
  · simp only [List.length_append, List.length_replicate, hdisc]
    omega

/-- The already-migrated branch: a non-empty, non-`L1`-length account
whose first 8 bytes are the V2 discriminator is returned unchanged. -/
theorem createOrRealloc_v2_noop (rentMin : Nat → Nat) (L1 L2 : Nat)
    (disc : List Nat) (pid : Pubkey) (hdisc : disc.length = 8) (sts : AcctState)
    (htag : sts.data.take 8 = disc) (hne : sts.data.length ≠ 0)
    (hnl : sts.data.length ≠ L1) :
    createOrReallocTradeState rentMin L1 L2 disc pid sts = .ok sts := by
  have hlen : 8 ≤ sts.data.length := by
    have h := congrArg List.length htag
    simp only [List.length_take, hdisc] at h
    omega
  simp only [createOrReallocTradeState]
  rw [if_neg hne, if_neg hnl, if_neg (by omega), if_pos htag]

/-- Classification of the successful outcomes of the lifecycle routine. -/
theorem createOrRealloc_ok_cases (rentMin : Nat → Nat) (L1 L2 : Nat)
    (disc : List Nat) (pid : Pubkey) (sts sts' : AcctState)
    (hok : createOrReallocTradeState rentMin L1 L2 disc pid sts = .ok sts') :
    (sts.data.length = 0 ∧ 8 ≤ L2 ∧
      sts' = ⟨sts.lamports + (rentMin L2 - sts.lamports),
              writeBytes (List.replicate L2 0) 0 disc, pid⟩) ∨
    (sts.data.length ≠ 0 ∧ sts.data.length = L1 ∧
      8 ≤ (reallocData (List.replicate L1 0) L2).length ∧
      sts' = ⟨sts.lamports + (rentMin L2 - sts.lamports),
              writeBytes (reallocData (List.replicate L1 0) L2) 0 disc,
              sts.owner⟩) ∨
    (sts.data.length ≠ 0 ∧ sts.data.length ≠ L1 ∧ ¬ sts.data.length < 8 ∧
      sts.data.take 8 = disc ∧ sts' = sts) := by
  simp only [createOrReallocTradeState] at hok
  by_cases h0 : sts.data.length = 0
  · rw [if_pos h0] at hok
    by_cases h8 : 8 ≤ L2
    · rw [if_pos h8] at hok
      simp only [RunResult.ok.injEq] at hok
      exact Or.inl ⟨h0, h8, hok.symm⟩
    · rw [if_neg h8] at hok
      exact absurd hok (by simp)
  · rw [if_neg h0] at hok
    by_cases hL : sts.data.length = L1
    · rw [if_pos hL] at hok
      by_cases h8 : 8 ≤ (reallocData (List.replicate L1 0) L2).length
      · rw [if_pos h8] at hok
        simp only [RunResult.ok.injEq] at hok
        exact Or.inr (Or.inl ⟨h0, hL, h8, hok.symm⟩)
      · rw [if_neg h8] at hok
        exact absurd hok (by simp)
    · rw [if_neg hL] at hok
      by_cases hlt : sts.data.length < 8
      · rw [if_pos hlt] at hok
        exact absurd hok (by simp)
      · rw [if_neg hlt] at hok
        by_cases htag : sts.data.take 8 = disc
        · rw [if_pos htag] at hok
          simp only [RunResult.ok.injEq] at hok
          exact Or.inr (Or.inr ⟨h0, hL, hlt, htag, hok.symm⟩)
        · rw [if_neg htag] at hok
          exact absurd hok (by simp)

/-! ## C5: trade-state migration idempotence -/

/-- C5: for every account whose first 8 data bytes equal the V2
discriminator and whose length is neither zero nor the legacy V1 length,
the lifecycle routine (both the seller and buyer variants instantiate
`createOrReallocTradeState`) succeeds and changes nothing; and after any
successful invocation, invoking the routine again succeeds with no
observable change.  Hypotheses: the discriminator is 8 bytes and
`L1 < L2` with `8 ≤ L2` (the V2 record carries the 8-byte leading
discriminator), as the spec's data model states. -/
theorem trade_state_idempotence (rentMin : Nat → Nat) (L1 L2 : Nat)
    (disc : List Nat) (pid : Pubkey)
    (hdisc : disc.length = 8) (hL1 : L1 < L2) (hL2 : 8 ≤ L2) :
    (∀ sts : AcctState, sts.data.take 8 = disc → sts.data.length ≠ 0 →
      sts.data.length ≠ L1 →
      createOrReallocTradeState rentMin L1 L2 disc pid sts = .ok sts) ∧
    (∀ sts sts' : AcctState,
      createOrReallocTradeState rentMin L1 L2 disc pid sts = .ok sts' →
      createOrReallocTradeState rentMin L1 L2 disc pid sts' = .ok sts') := by
  have hshape := v2_shape_props L2 disc hdisc hL2
  refine ⟨fun sts htag hne hnl =>
    createOrRealloc_v2_noop rentMin L1 L2 disc pid hdisc sts htag hne hnl,
    fun sts sts' hok => ?_⟩
  rcases createOrRealloc_ok_cases rentMin L1 L2 disc pid sts sts' hok with
    ⟨_, _, hsts'⟩ | ⟨_, _, _, hsts'⟩ | ⟨hne, hnl, _, htag, hsts'⟩
  · subst hsts'
    apply createOrRealloc_v2_noop rentMin L1 L2 disc pid hdisc
    · simp only [writeBytes_replicate_zero, hdisc]
      exact hshape.1
    · simp only [writeBytes_replicate_zero, hdisc, hshape.2]
      omega
    · simp only [writeBytes_replicate_zero, hdisc, hshape.2]
      omega
  · subst hsts'
    rw [reallocData_replicate L1 L2 hL1.le]
    apply createOrRealloc_v2_noop rentMin L1 L2 disc pid hdisc
    · simp only [writeBytes_replicate_zero, hdisc]
      exact hshape.1
    · simp only [writeBytes_replicate_zero, hdisc, hshape.2]
      omega
    · simp only [writeBytes_replicate_zero, hdisc, hshape.2]
      omega
  · subst hsts'
    exact createOrRealloc_v2_noop rentMin L1 L2 disc pid hdisc _ htag hne hnl

/-- C5 witness: a concrete already-V2 account (length 120, discriminator
prefix) is returned unchanged, and re-running after a successful fresh
creation is also a no-op. -/
theorem trade_state_idempotence_witness :
    createOrReallocTradeState (fun n => (128 + n) * 6960) 100 120
      [1, 2, 3, 4, 5, 6, 7, 8] [7]
      ⟨1726080, [1, 2, 3, 4, 5, 6, 7, 8] ++ List.replicate 112 0, [7]⟩ =
      .ok ⟨1726080, [1, 2, 3, 4, 5, 6, 7, 8] ++ List.replicate 112 0, [7]⟩ :=
  (trade_state_idempotence (fun n => (128 + n) * 6960) 100 120
      [1, 2, 3, 4, 5, 6, 7, 8] [7] (by decide) (by decide) (by decide)).1
    ⟨1726080, [1, 2, 3, 4, 5, 6, 7, 8] ++ List.replicate 112 0, [7]⟩
    (by decide) (by decide) (by decide)

/-! ## C2: post-state invariant of the lifecycle routine -/

/-- C2 (amended): on success of the lifecycle routine, (a) from an
empty-data start the account is exactly `L2` bytes, holds at least
`rentMin L2` lamports, starts with the V2 discriminator and is owned by
the program; (b) the same holds from a legacy `L1`-length start provided
the account was already program-owned (the migration branch preserves the
owner, it does not assign it); (c) from any other start (the
already-V2-tagged branch) the routine changes nothing at all — in
particular it does NOT establish the V2 length, rent exemption or
program ownership there, so the invariant holds afterwards only if it
held before. -/
theorem trade_state_post_invariant (rentMin : Nat → Nat) (L1 L2 : Nat)
    (disc : List Nat) (pid : Pubkey) (sts sts' : AcctState)
    (hdisc : disc.length = 8) (hL1 : L1 < L2) (hL2 : 8 ≤ L2)
    (hok : createOrReallocTradeState rentMin L1 L2 disc pid sts = .ok sts') :
    (sts.data.length = 0 ∨ (sts.data.length = L1 ∧ sts.owner = pid) →
      sts'.data.length = L2 ∧ rentMin L2 ≤ sts'.lamports ∧
      sts'.data.take 8 = disc ∧ sts'.owner = pid) ∧
    (sts.data.length ≠ 0 → sts.data.length ≠ L1 → sts' = sts) := by
  have hshape := v2_shape_props L2 disc hdisc hL2
  rcases createOrRealloc_ok_cases rentMin L1 L2 disc pid sts sts' hok with
    ⟨h0, _, hsts'⟩ | ⟨hne, hlen, _, hsts'⟩ | ⟨hne, hnl, _, _, hsts'⟩
  · subst hsts'
    refine ⟨fun _ => ⟨?_, by simp; omega, ?_, rfl⟩, fun hne _ => absurd h0 hne⟩
    · simp only [writeBytes_replicate_zero, hdisc]
      exact hshape.2
    · simp only [writeBytes_replicate_zero, hdisc]
      exact hshape.1
  · subst hsts'
    refine ⟨fun hpre => ?_, fun _ hnl => absurd hlen hnl⟩
    rcases hpre with h0 | ⟨_, hown⟩
    · exact absurd h0 hne
    · rw [reallocData_replicate L1 L2 hL1.le]
      refine ⟨?_, by simp; omega, ?_, hown⟩
      · simp only [writeBytes_replicate_zero, hdisc]
        exact hshape.2
      · simp only [writeBytes_replicate_zero, hdisc]
        exact hshape.1
  · subst hsts'
    exact ⟨fun hpre => by
      rcases hpre with h0 | ⟨hlen, _⟩
      · exact absurd h0 hne
      · exact absurd hlen hnl,
      fun _ _ => rfl⟩

/-- C2 witness: creating a fresh (empty-data, zero-lamport) trade state
with the realistic rent function, `L1 = 100`, `L2 = 120` establishes the
full invariant. -/
theorem trade_state_post_invariant_witness :
    ([1, 2, 3, 4, 5, 6, 7, 8] ++ List.replicate 112 0).length = 120 ∧
    (128 + 120) * 6960 ≤ 1726080 ∧
    ([1, 2, 3, 4, 5, 6, 7, 8] ++ List.replicate 112 0).take 8 =
      [1, 2, 3, 4, 5, 6, 7, 8] ∧
    ([7] : Pubkey) = [7] :=
  (trade_state_post_invariant (fun n => (128 + n) * 6960) 100 120
      [1, 2, 3, 4, 5, 6, 7, 8] [7] ⟨0, [], [0]⟩
      ⟨1726080, [1, 2, 3, 4, 5, 6, 7, 8] ++ List.replicate 112 0, [7]⟩
      (by decide) (by decide) (by decide) (by decide)).1 (Or.inl rfl)

/-- C2 counterexample: an account whose data is 12 bytes — the V2
discriminator followed by 4 bytes — with 5 lamports and a foreign owner
makes the routine succeed unchanged: the resulting account is not `L2`
bytes, not rent-exempt, and not owned by the program, refuting the claim
that every success ends in the full V2 invariant "from any starting
state ... or data already carrying the V2 discriminator". -/
theorem trade_state_post_invariant_cex :
    createOrReallocTradeState (fun n => (128 + n) * 6960) 100 120
      [1, 2, 3, 4, 5, 6, 7, 8] [7]
      ⟨5, [1, 2, 3, 4, 5, 6, 7, 8] ++ [0, 0, 0, 0], [9]⟩ =
      .ok ⟨5, [1, 2, 3, 4, 5, 6, 7, 8] ++ [0, 0, 0, 0], [9]⟩ ∧
    ([1, 2, 3, 4, 5, 6, 7, 8] ++ [0, 0, 0, 0]).length ≠ 120 ∧
    5 < (128 + 120) * 6960 ∧
    ([9] : Pubkey) ≠ [7] := by
  decide

/-! ## C10: out-of-bounds discriminator slices panic -/

/-- C10: for every account whose data is shorter than 8 bytes, the
8-byte discriminator slice in the lifecycle routine (reached when the
data is non-empty and its length is not the legacy V1 length) and the
unconditional 8-byte slice in `close_account_anchor` (reached once the
lamport `checked_add` succeeds) are out of bounds: both operations panic
instead of returning an error such as `InvalidAccountState`. -/
theorem short_data_slice_panics (rentMin : Nat → Nat) (L1 L2 : Nat)
    (disc : List Nat) (pid : Pubkey) :
    (∀ sts : AcctState, sts.data.length < 8 → sts.data.length ≠ 0 →
      sts.data.length ≠ L1 →
      createOrReallocTradeState rentMin L1 L2 disc pid sts = .panicked) ∧
    (∀ info dest : AcctState, info.data.length < 8 →
      dest.lamports + info.lamports < 2 ^ 64 →
      closeAccountAnchor info dest = .panicked) := by
  constructor
  · intro sts hlt hne hnl
    simp only [createOrReallocTradeState]
    rw [if_neg hne, if_neg hnl, if_pos hlt]
  · intro info dest hlt hadd
    have hsome : checkedAdd64 dest.lamports info.lamports =
        some (dest.lamports + info.lamports) := by
      unfold checkedAdd64 U64MOD
      rw [if_pos hadd]
    simp only [closeAccountAnchor, hsome]
    rw [if_neg (by omega)]

/-- C10 witness: a 3-byte account panics in the lifecycle routine, and a
zero-byte account panics in `close_account_anchor`. -/
theorem short_data_slice_panics_witness :
    createOrReallocTradeState (fun n => (128 + n) * 6960) 100 120
      [1, 2, 3, 4, 5, 6, 7, 8] [7] ⟨0, [4, 4, 4], [7]⟩ = .panicked ∧
    closeAccountAnchor ⟨1, [], [7]⟩ ⟨2, [], [8]⟩ = .panicked :=
  ⟨(short_data_slice_panics (fun n => (128 + n) * 6960) 100 120
      [1, 2, 3, 4, 5, 6, 7, 8] [7]).1 ⟨0, [4, 4, 4], [7]⟩
      (by decide) (by decide) (by decide),
   (short_data_slice_panics (fun n => (128 + n) * 6960) 100 120
      [1, 2, 3, 4, 5, 6, 7, 8] [7]).2 ⟨1, [], [7]⟩ ⟨2, [], [8]⟩
      (by decide) (by decide)⟩

/-! ## C9: round-trip of the raw layout readers -/

theorem sliceBytes_at (pre mid post : List Nat) (off len : Nat)
    (hpre : pre.length = off) (hmid : mid.length = len) :
    sliceBytes (pre ++ (mid ++ post)) off len = mid := by
  subst hpre
  subst hmid
  unfold sliceBytes
  rw [List.drop_left, List.take_left]

theorem u64le_length (n : Nat) : (u64le n).length = 8 := rfl

theorem u64leDecode_u64le (n : Nat) (h : n < 2 ^ 64) :
    u64leDecode (u64le n) = n := by
  simp only [u64le, u64leDecode]
  omega

/-- C9: encoding a token-account value into the fixed 165-byte SPL
layout and applying the three raw readers returns exactly the encoded
mint (bytes [0,32)), the encoded delegate (`none` iff the 4-byte
presence tag at [72,76) is zero, otherwise the key at [76,108)), and the
encoded balance (little-endian `u64` at [64,72)); the hypotheses state
the field well-formedness of the encoded value (32-byte keys, `u64`
balance). -/
theorem token_account_layout_roundtrip (a : TokenAcct)
    (hmint : a.mint.length = 32) (howner : a.owner.length = 32)
    (hamount : a.amount < 2 ^ 64)
    (hdel : ∀ k, a.delegate = some k → k.length = 32) :
    get_mint_from_token_account (packTokenAccount a) = a.mint ∧
    get_delegate_from_token_account (packTokenAccount a) = a.delegate ∧
    get_balance_from_token_account (packTokenAccount a) = a.amount := by
  refine ⟨?_, ?_, ?_⟩
  · unfold get_mint_from_token_account
    have hbuf : packTokenAccount a =
        a.mint ++ (a.owner ++ u64le a.amount ++ packCOptionKey a.delegate ++
          [a.state] ++ packCOptionU64 a.isNative ++ u64le a.delegatedAmount ++
          packCOptionKey a.closeAuthority) := by
      simp [packTokenAccount, List.append_assoc]
    rw [hbuf]
    unfold sliceBytes
    rw [List.drop_zero, List.take_left' hmint]
  · unfold get_delegate_from_token_account
    rcases hd : a.delegate with _ | k
    · have hbuf : packTokenAccount a =
          (a.mint ++ a.owner ++ u64le a.amount) ++ ([0, 0, 0, 0] ++
            (List.replicate 32 0 ++ [a.state] ++ packCOptionU64 a.isNative ++
              u64le a.delegatedAmount ++ packCOptionKey a.closeAuthority)) := by
        simp [packTokenAccount, packCOptionKey, hd, List.append_assoc]
      rw [hbuf, sliceBytes_at _ [0, 0, 0, 0] _ 72 4
        (by simp [hmint, howner, u64le]) rfl]
      simp [u32leDecode]
    · have hk : k.length = 32 := hdel k hd
      have hbuf : packTokenAccount a =
          (a.mint ++ a.owner ++ u64le a.amount) ++ ([1, 0, 0, 0] ++
            (k ++ ([a.state] ++ packCOptionU64 a.isNative ++
              u64le a.delegatedAmount ++ packCOptionKey a.closeAuthority))) := by
        simp [packTokenAccount, packCOptionKey, hd, List.append_assoc]
      rw [hbuf, sliceBytes_at _ [1, 0, 0, 0] _ 72 4
        (by simp [hmint, howner, u64le]) rfl]
      rw [if_neg (by simp [u32leDecode])]
      have heq : (a.mint ++ a.owner ++ u64le a.amount) ++ ([1, 0, 0, 0] ++
            (k ++ ([a.state] ++ packCOptionU64 a.isNative ++
              u64le a.delegatedAmount ++ packCOptionKey a.closeAuthority))) =
          (a.mint ++ a.owner ++ u64le a.amount ++ [1, 0, 0, 0]) ++
            (k ++ ([a.state] ++ packCOptionU64 a.isNative ++
              u64le a.delegatedAmount ++ packCOptionKey a.closeAuthority)) := by
        simp [List.append_assoc]
      rw [heq, sliceBytes_at _ k _ 76 32
        (by simp [hmint, howner, u64le]) hk]
  · unfold get_balance_from_token_account
    have hbuf : packTokenAccount a =
        (a.mint ++ a.owner) ++ (u64le a.amount ++
          (packCOptionKey a.delegate ++ [a.state] ++ packCOptionU64 a.isNative ++
            u64le a.delegatedAmount ++ packCOptionKey a.closeAuthority)) := by
      simp [packTokenAccount, List.append_assoc]
    rw [hbuf, sliceBytes_at _ (u64le a.amount) _ 64 8
      (by simp [hmint, howner]) (u64le_length a.amount)]
    exact u64leDecode_u64le a.amount hamount

/-- C9 witness: a concrete token account with a present delegate
round-trips through the packed layout. -/
theorem token_account_layout_roundtrip_witness :
    get_mint_from_token_account
      (packTokenAccount ⟨List.replicate 32 3, List.replicate 32 4, 10004,
        some (List.replicate 32 5), 1, none, 0, none⟩) = List.replicate 32 3 ∧
    get_delegate_from_token_account
      (packTokenAccount ⟨List.replicate 32 3, List.replicate 32 4, 10004,
        some (List.replicate 32 5), 1, none, 0, none⟩) =
      some (List.replicate 32 5) ∧
    get_balance_from_token_account
      (packTokenAccount ⟨List.replicate 32 3, List.replicate 32 4, 10004,
        some (List.replicate 32 5), 1, none, 0, none⟩) = 10004 :=
  token_account_layout_roundtrip
    ⟨List.replicate 32 3, List.replicate 32 4, 10004,
      some (List.replicate 32 5), 1, none, 0, none⟩
    (by decide) (by decide) (by decide)
    (fun k hk => by
      simp only [Option.some.injEq] at hk
      rw [← hk]
      decide)

/-! ## C8: delegation validation -/

theorem except_bind_ok {ε α β : Type} (a : α) (f : α → Except ε β) :
    (Except.ok a >>= f) = f a := rfl

theorem except_bind_error {ε α β : Type} (e : ε) (f : α → Except ε β) :
    ((Except.error e : Except ε α) >>= f) = Except.error e := rfl

theorem except_pure {ε α : Type} (a : α) :
    (pure a : Except ε α) = Except.ok a := rfl

/-- C8: characterization of `assert_valid_delegation`.  When `src`
decodes as an SPL token account: it fails `InvalidAccountState` unless
the delegated amount equals `paysize` and the delegate is the transfer
authority, and — with those holding — succeeds exactly when both `src`
and `dst` pass the canonical associated-token-account check
(`assert_is_ata`) for their wallets and the mint.  When `src` does not
decode: it fails `ExpectedSolAccount` unless the mint is the native
mint, `SOLWalletMustSign` unless the source wallet signs,
`PublicKeyMismatch` unless the wallet keys equal the account keys, and
succeeds exactly when all those checks pass. -/
theorem assert_valid_delegation_spec
    (ataOf : Pubkey → Pubkey → Pubkey) (splId native : Pubkey)
    (src dst srcW dstW : AcctInfo) (auth mintKey : Pubkey) (paysize : Nat) :
    (∀ ta, unpackToken src = some ta →
      ((ta.delegatedAmount ≠ paysize ∨ ta.delegate ≠ some auth) →
        assertValidDelegation ataOf splId native src dst srcW dstW auth
          mintKey paysize = .error (.code .InvalidAccountState)) ∧
      (assertValidDelegation ataOf splId native src dst srcW dstW auth
          mintKey paysize = .ok () ↔
        ta.delegatedAmount = paysize ∧ ta.delegate = some auth ∧
        (∃ v, assertIsAta ataOf splId src srcW.key mintKey srcW.key = .ok v) ∧
        (∃ v, assertIsAta ataOf splId dst dstW.key mintKey dstW.key = .ok v))) ∧
    (unpackToken src = none →
      (mintKey ≠ native →
        assertValidDelegation ataOf splId native src dst srcW dstW auth
          mintKey paysize = .error (.code .ExpectedSolAccount)) ∧
      (mintKey = native → srcW.isSigner = false →
        assertValidDelegation ataOf splId native src dst srcW dstW auth
          mintKey paysize = .error (.code .SOLWalletMustSign)) ∧
      (mintKey = native → srcW.isSigner = true → srcW.key ≠ src.key →
        assertValidDelegation ataOf splId native src dst srcW dstW auth
          mintKey paysize = .error (.code .PublicKeyMismatch)) ∧
      (mintKey = native → srcW.isSigner = true → srcW.key = src.key →
        dstW.key ≠ dst.key →
        assertValidDelegation ataOf splId native src dst srcW dstW auth
          mintKey paysize = .error (.code .PublicKeyMismatch)) ∧
      (assertValidDelegation ataOf splId native src dst srcW dstW auth
          mintKey paysize = .ok () ↔
        mintKey = native ∧ srcW.isSigner = true ∧ srcW.key = src.key ∧
          dstW.key = dst.key)) := by
  constructor
  · intro ta hta
    by_cases h1 : ta.delegatedAmount = paysize
    · by_cases h2 : ta.delegate = some auth
      · have hrw : assertValidDelegation ataOf splId native src dst srcW dstW
            auth mintKey paysize =
            (assertIsAta ataOf splId src srcW.key mintKey srcW.key >>= fun _ =>
              assertIsAta ataOf splId dst dstW.key mintKey dstW.key >>= fun _ =>
                pure ()) := by
          simp only [assertValidDelegation, hta]
          rw [if_neg (by simp [h1]), if_neg (by simp [h2])]
        rw [hrw]
        constructor
        · intro hbad
          rcases hbad with h | h
          · exact absurd h1 h
          · exact absurd h2 h
        · rcases hA : assertIsAta ataOf splId src srcW.key mintKey srcW.key
            with eA | vA
          · rw [except_bind_error]
            constructor
            · intro h
              exact absurd h (by simp)
            · rintro ⟨-, -, ⟨v, hv⟩, -⟩
              cases hv
          · rw [except_bind_ok]
            rcases hB : assertIsAta ataOf splId dst dstW.key mintKey dstW.key
              with eB | vB
            · rw [except_bind_error]
              constructor
              · intro h
                exact absurd h (by simp)
              · rintro ⟨-, -, -, ⟨v, hv⟩⟩
                cases hv
            · rw [except_bind_ok, except_pure]
              exact ⟨fun _ => ⟨h1, h2, ⟨vA, rfl⟩, ⟨vB, rfl⟩⟩, fun _ => rfl⟩
      · have hrw : assertValidDelegation ataOf splId native src dst srcW dstW
            auth mintKey paysize = .error (.code .InvalidAccountState) := by
          simp only [assertValidDelegation, hta]
          rw [if_neg (by simp [h1]), if_pos h2]
        rw [hrw]
        refine ⟨fun _ => rfl, ?_⟩
        constructor
        · intro h
          exact absurd h (by simp)
        · rintro ⟨-, hh, -, -⟩
          exact absurd hh h2
    · have hrw : assertValidDelegation ataOf splId native src dst srcW dstW
          auth mintKey paysize = .error (.code .InvalidAccountState) := by
        simp only [assertValidDelegation, hta]
        rw [if_pos h1]
      rw [hrw]
      refine ⟨fun _ => rfl, ?_⟩
      constructor
      · intro h
        exact absurd h (by simp)
      · rintro ⟨hh, -, -, -⟩
        exact absurd hh h1
  · intro htn
    by_cases hm : mintKey = native
    · by_cases hs : srcW.isSigner = true
      · have hrw : assertValidDelegation ataOf splId native src dst srcW dstW
            auth mintKey paysize =
            (assertKeysEqual srcW.key src.key >>= fun _ =>
              assertKeysEqual dstW.key dst.key) := by
          simp only [assertValidDelegation, htn]
          rw [if_neg (by simp [hm]), if_neg (by simp [hs])]
        by_cases hks : srcW.key = src.key
        · have hake1 : assertKeysEqual srcW.key src.key = .ok () := by
            simp [assertKeysEqual, hks]
          by_cases hkd : dstW.key = dst.key
          · have hake2 : assertKeysEqual dstW.key dst.key = .ok () := by
              simp [assertKeysEqual, hkd]
            have hok : assertValidDelegation ataOf splId native src dst srcW
                dstW auth mintKey paysize = .ok () := by
              rw [hrw, hake1, except_bind_ok, hake2]
            rw [hok]
            exact ⟨fun h => absurd hm h, fun _ h => by simp [h] at hs,
              fun _ _ h => absurd hks h, fun _ _ _ h => absurd hkd h,
              ⟨fun _ => ⟨hm, hs, hks, hkd⟩, fun _ => rfl⟩⟩
          · have hake2 : assertKeysEqual dstW.key dst.key =
                .error (.code .PublicKeyMismatch) := by
              simp [assertKeysEqual, hkd]
            have herr : assertValidDelegation ataOf splId native src dst srcW
                dstW auth mintKey paysize = .error (.code .PublicKeyMismatch) := by
              rw [hrw, hake1, except_bind_ok, hake2]
            rw [herr]
            refine ⟨fun h => absurd hm h, fun _ h => by simp [h] at hs,
              fun _ _ h => absurd hks h, fun _ _ _ _ => rfl, ?_⟩
            constructor
            · intro h
              exact absurd h (by simp)
            · rintro ⟨-, -, -, h⟩
              exact absurd h hkd
        · have hake1 : assertKeysEqual srcW.key src.key =
              .error (.code .PublicKeyMismatch) := by
            simp [assertKeysEqual, hks]
          have herr : assertValidDelegation ataOf splId native src dst srcW
              dstW auth mintKey paysize = .error (.code .PublicKeyMismatch) := by
            rw [hrw, hake1, except_bind_error]
          rw [herr]
          refine ⟨fun h => absurd hm h, fun _ h => by simp [h] at hs,
            fun _ _ _ => rfl, fun _ _ h _ => absurd h hks, ?_⟩
          constructor
          · intro h
            exact absurd h (by simp)
          · rintro ⟨-, -, h, -⟩
            exact absurd h hks
      · have hrw : assertValidDelegation ataOf splId native src dst srcW dstW
            auth mintKey paysize = .error (.code .SOLWalletMustSign) := by
          simp only [assertValidDelegation, htn]
          rw [if_neg (by simp [hm]), if_pos (by simp [hs])]
        rw [hrw]
        refine ⟨fun h => absurd hm h, fun _ _ => rfl,
          fun _ h _ => absurd h hs, fun _ h _ _ => absurd h hs, ?_⟩
        constructor
        · intro h
          exact absurd h (by simp)
        · rintro ⟨-, h, -, -⟩
          exact absurd h hs
    · have hrw : assertValidDelegation ataOf splId native src dst srcW dstW
          auth mintKey paysize = .error (.code .ExpectedSolAccount) := by
        simp only [assertValidDelegation, htn]
        rw [if_pos hm]
      rw [hrw]
      refine ⟨fun _ => rfl, fun h _ => absurd h hm, fun h _ _ => absurd h hm,
        fun h _ _ _ => absurd h hm, ?_⟩
      constructor
      · intro h
        exact absurd h (by simp)
      · rintro ⟨h, -, -, -⟩
        exact absurd h hm

/-- C8 witness: the native-currency path with a signing source wallet
whose keys match succeeds, by the characterization theorem. -/
theorem assert_valid_delegation_spec_witness :
    assertValidDelegation (fun _ _ => [0]) [5] [9]
      ⟨[1], [5], false, none⟩ ⟨[2], [5], false, none⟩
      ⟨[1], [0], true, none⟩ ⟨[2], [0], false, none⟩
      [3] [9] 7 = .ok () :=
  ((assert_valid_delegation_spec (fun _ _ => [0]) [5] [9]
      ⟨[1], [5], false, none⟩ ⟨[2], [5], false, none⟩
      ⟨[1], [0], true, none⟩ ⟨[2], [0], false, none⟩
      [3] [9] 7).2 rfl).2.2.2.2.mpr ⟨rfl, rfl, rfl, rfl⟩

end M2
